import Mathlib

/-!
Verification of the CoopHive decentralized-rag-database pipeline orchestrator.

The definitions below are a shallow embedding of the Python sources:

* `src/descidb/core/processor.py` — the `Processor` class: `process`,
  `__update_mappings`, `__read_mappings`, `__write_mappings`,
  `__lighthouse_and_commit`.  External collaborators (the Lighthouse
  upload transport, the Neo4j graph database, the pluggable
  convert/chunk/embed functions) are modelled at their interface
  boundary: an `Env` record supplies their responses, and each call the
  orchestrator makes to them is recorded as an `Event` in a trace.
* `src/src/core/converter.py` — the `convert` dispatch over the closed
  registry of converter functions.
* `src/src/db/chroma_client.py` — `VectorDatabaseManager.batch_insert_documents`.

Machine-level details that the orchestrator never inspects (byte
contents of PDFs, embedding vectors) are carried as opaque values.
-/

namespace DesciDB

/-- A pipeline variant: the `db_config` dict of `Processor.process`,
holding a converter, a chunker and an embedder name. -/
structure Variant where
  converter : String
  chunker : String
  embedder : String
deriving DecidableEq, Repr

/-- `db_combination = f"{converter_func}_{chunker_func}_{embedder_func}"`
(processor.py line 292). -/
def Variant.combination (v : Variant) : String :=
  v.converter ++ "_" ++ v.chunker ++ "_" ++ v.embedder

/-- `chunk_cache_key = f"{converter_func}_{chunker_func}"`
(processor.py line 361). -/
def chunkCacheKey (converter chunker : String) : String :=
  converter ++ "_" ++ chunker

/-- One observable call the orchestrator makes to an external
collaborator, or one persisted-ledger write. -/
inductive Event where
  | upload (result : String)
  | addNode (cid : String)
  | addEdge (src dst rel : String)
  | convertCall (converter : String)
  | chunkCall (chunker : String)
  | embedCall (embedder : String) (chunkText : String)
  | writeGlobalMappings
  | writeUserMappings
deriving DecidableEq, Repr

/-- The mapping-ledger contents: document CID to the list of completed
`db_combination` strings, as stored in `mappings.json`. -/
abbrev MappingData := List (String × List String)

/-- Association-list lookup by string key (the dict lookups of the
Python code). -/
def alistLookup {α : Type} : List (String × α) → String → Option α
  | [], _ => none
  | (k2, v) :: rest, k => if k2 = k then some v else alistLookup rest k

/-- Association-list update: set the value at a key, appending a new
entry when the key is absent (dict item assignment). -/
def setEntry {α : Type} : List (String × α) → String → α → List (String × α)
  | [], k, v => [(k, v)]
  | (k2, v2) :: rest, k, v =>
      if k2 = k then (k2, v) :: rest else (k2, v2) :: setEntry rest k v

/-- Python truthiness of an optional CID (`if converted_text_ipfs_cid:`):
`None` and the empty string are both falsy. -/
def optTruthy : Option String → Bool
  | none => false
  | some s => !s.isEmpty

/-- Python truthiness of a string (`if converted_text:`, `if not metadata["pdf_ipfs_cid"]:`). -/
def strTruthy (s : String) : Bool := !s.isEmpty

/-- `is PDF CID + db_combination already in the mapping` — the check of
processor.py line 298 (`pdf_cid in mappings and combo in mappings[pdf_cid]`). -/
def isComplete (m : MappingData) (cid combo : String) : Bool :=
  match alistLookup m cid with
  | none => false
  | some l => decide (combo ∈ l)

/-- Net effect on the mapping dict of processor.py lines 224–227 /
235–238: ensure the document CID has an entry, then append the
combination string when it is not already present. -/
def updateMappingData (m : MappingData) (cid combo : String) : MappingData :=
  let cur := (alistLookup m cid).getD []
  if combo ∈ cur then setEntry m cid cur else setEntry m cid (cur ++ [combo])

/-- Responses of the external collaborators during one run:
the upload transport (by call number; the empty string models the
`return ""` failure path of `__lighthouse_and_commit`), the graph
queries `get_converted_markdown_cid` and `_query_ipfs_content`
(the empty string models a fetch miss), and the pluggable
convert / chunk / embed functions, selected by name. -/
structure Env where
  uploadResult : Nat → String
  getConvertedCid : String → String → Option String
  fetchContent : String → String
  convertFn : String → String → String
  chunkFn : String → String → List String
  embedFn : String → String → String

/-- The orchestrator state threaded through one `process` call:
the two per-run caches (instance fields reset at the top of `process`),
the two mapping ledgers (global `temp/mappings.json` and per-user
`temp/<user>/mappings.json`), the upload-call counter, and the trace of
external calls, most recent first. -/
structure PState where
  convert_cache : List (String × String)
  chunk_cache : List (String × List String)
  globalMappings : MappingData
  userMappings : MappingData
  uploadCount : Nat
  trace : List Event
deriving DecidableEq, Repr

/-- `__lighthouse_and_commit`: one upload transport call, returning the
CID string (empty on failure, processor.py line 164). -/
def lighthouseAndCommit (env : Env) (st : PState) : String × PState :=
  let r := env.uploadResult st.uploadCount
  (r, { st with uploadCount := st.uploadCount + 1, trace := Event.upload r :: st.trace })

/-- `graph_db.add_ipfs_node`. -/
def addIpfsNode (cid : String) (st : PState) : PState :=
  { st with trace := Event.addNode cid :: st.trace }

/-- `graph_db.create_relationship`. -/
def createRelationship (src dst rel : String) (st : PState) : PState :=
  { st with trace := Event.addEdge src dst rel :: st.trace }

/-- `__update_mappings` (processor.py lines 213–240): read-modify-write
the global ledger, then read-modify-write the user ledger. -/
def updateMappings (st : PState) (cid combo : String) : PState :=
  let g := updateMappingData st.globalMappings cid combo
  let st1 := { st with globalMappings := g, trace := Event.writeGlobalMappings :: st.trace }
  let u := updateMappingData st1.userMappings cid combo
  { st1 with userMappings := u, trace := Event.writeUserMappings :: st1.trace }

/-- Step 2.1 of `Processor.process` (lines 305–357): look for an existing
`CONVERTED_BY_<converter>` edge; on a hit, fetch its content and seed the
convert cache, resetting the CID on a fetch miss; then, if there is no
usable existing conversion or the cache is still empty, obtain the text
(converting only on a cache miss), upload it and link it into the graph.
Returns the converted-text CID together with the new state. -/
def conversionPhase (env : Env) (pdfPath pdfCid authorCid converter : String)
    (st : PState) : String × PState :=
  let cid0 := env.getConvertedCid pdfCid converter
  let seeded :=
    if optTruthy cid0 then
      let text := env.fetchContent (cid0.getD "")
      if strTruthy text then
        (cid0, { st with convert_cache := setEntry st.convert_cache converter text })
      else
        ((none : Option String), st)
    else
      (cid0, st)
  let cid1 := seeded.1
  let st1 := seeded.2
  if !(optTruthy cid1) || (alistLookup st1.convert_cache converter).isNone then
    let computed :=
      match alistLookup st1.convert_cache converter with
      | none =>
          let t := env.convertFn converter pdfPath
          (t, { st1 with convert_cache := setEntry st1.convert_cache converter t,
                         trace := Event.convertCall converter :: st1.trace })
      | some t => (t, st1)
    let up := lighthouseAndCommit env computed.2
    let c := up.1
    let st3 := addIpfsNode c up.2
    let st4 := createRelationship pdfCid c ("CONVERTED_BY_" ++ converter) st3
    let st5 := createRelationship c authorCid "AUTHORED_BY" st4
    (c, st5)
  else
    (cid1.getD "", st1)

/-- Body of the chunk loop of `Processor.process` (lines 370–403):
upload the chunk, register and link it, embed it, upload the embedding,
register and link it. -/
def processChunk (env : Env) (authorCid convCid : String) (v : Variant)
    (chunkText : String) (st : PState) : PState :=
  let up1 := lighthouseAndCommit env st
  let chunkCid := up1.1
  let st1 := addIpfsNode chunkCid up1.2
  let st2 := createRelationship convCid chunkCid ("CHUNKED_BY_" ++ v.chunker) st1
  let st3 := createRelationship chunkCid authorCid "AUTHORED_BY" st2
  let st4 := { st3 with trace := Event.embedCall v.embedder chunkText :: st3.trace }
  let up2 := lighthouseAndCommit env st4
  let embCid := up2.1
  let st5 := addIpfsNode embCid up2.2
  let st6 := createRelationship chunkCid embCid ("EMBEDDED_BY_" ++ v.embedder) st5
  createRelationship embCid authorCid "AUTHORED_BY" st6

/-- Body of the `for db_config in databases` loop of `Processor.process`
(lines 287–405): skip-and-record when the global ledger already lists the
combination, otherwise run conversion, chunking, the chunk loop, and
finally `__update_mappings`. -/
def processVariant (env : Env) (pdfPath pdfCid authorCid : String) (v : Variant)
    (st : PState) : PState :=
  let combo := v.combination
  if isComplete st.globalMappings pdfCid combo then
    updateMappings st pdfCid combo
  else
    let conv := conversionPhase env pdfPath pdfCid authorCid v.converter st
    let convCid := conv.1
    let st1 := conv.2
    let convertedText := (alistLookup st1.convert_cache v.converter).getD ""
    let key := chunkCacheKey v.converter v.chunker
    let chunked :=
      match alistLookup st1.chunk_cache key with
      | none =>
          let cs := env.chunkFn v.chunker convertedText
          (cs, { st1 with chunk_cache := setEntry st1.chunk_cache key cs,
                          trace := Event.chunkCall v.chunker :: st1.trace })
      | some cs => (cs, st1)
    let st3 := chunked.1.foldl (fun s ch => processChunk env authorCid convCid v ch s) chunked.2
    updateMappings st3 pdfCid combo

/-- `Processor.process` from the PDF upload onward (lines 251–405): reset
the per-run caches, upload the document (aborting when the upload fails),
register and author-link the document node, then process each requested
variant in order.  Metadata resolution (lines 256–270) reads the local
metadata file only and performs no persisted effect, so it is not
modelled. -/
def process (env : Env) (pdfPath authorCid : String) (databases : List Variant)
    (st : PState) : PState :=
  let st0 := { st with convert_cache := [], chunk_cache := [] }
  let up := lighthouseAndCommit env st0
  let pdfCid := up.1
  let st1 := up.2
  if !(strTruthy pdfCid) then st1
  else
    let st2 := addIpfsNode pdfCid st1
    let st3 := createRelationship pdfCid authorCid "AUTHORED_BY" st2
    databases.foldl (fun s v => processVariant env pdfPath pdfCid authorCid v s) st3

/-- The converter names appearing as `convertCall` events in a trace,
most recent first. -/
def convertCalls : List Event → List String
  | [] => []
  | Event.convertCall c :: rest => c :: convertCalls rest
  | _ :: rest => convertCalls rest

/-- The chunker names appearing as `chunkCall` events in a trace,
most recent first. -/
def chunkCalls : List Event → List String
  | [] => []
  | Event.chunkCall c :: rest => c :: chunkCalls rest
  | _ :: rest => chunkCalls rest

/-- The initial orchestrator state: empty caches, empty ledgers, no
calls made yet. -/
def initState : PState :=
  { convert_cache := [], chunk_cache := [], globalMappings := [],
    userMappings := [], uploadCount := 0, trace := [] }

/-- `__read_mappings` (processor.py lines 180–196): a missing file and a
file whose contents fail to load both yield the empty mapping.  The
structural JSON parse (`json.load`) is external and abstracted as a
`parse` parameter. -/
def readMappings (parse : String → Option MappingData) (contents : Option String) :
    MappingData :=
  match contents with
  | none => []
  | some s =>
    match parse s with
    | some m => m
    | none => []

/-- A sequence of orchestrator invocations, each with its own PDF path,
author CID and requested variant list, run against the shared state. -/
def processMany (env : Env) (reqs : List (String × String × List Variant))
    (st : PState) : PState :=
  reqs.foldl (fun s r => process env r.1 r.2.1 r.2.2 s) st

/-- One mapping is contained in another: every combination recorded for
a document CID in the first is recorded for it in the second. -/
def mappingLE (m1 m2 : MappingData) : Prop :=
  ∀ cid combo, combo ∈ (alistLookup m1 cid).getD [] →
    combo ∈ (alistLookup m2 cid).getD []

/-- Both ledgers of one state are contained in those of another. -/
def ledgersLE (s1 s2 : PState) : Prop :=
  mappingLE s1.globalMappings s2.globalMappings ∧
  mappingLE s1.userMappings s2.userMappings

namespace Converter

/-- The `conversion_methods` dict of `convert`
(src/src/core/converter.py lines 54–58), parameterized by the three
registered converter implementations. -/
def conversion_methods (marker openai markitdown : String → String) :
    List (String × (String → String)) :=
  [("marker", marker), ("openai", openai), ("markitdown", markitdown)]

/-- `convert` (src/src/core/converter.py lines 51–60):
`conversion_methods[conversion_type](input_path)`.  `none` models the
`KeyError` raised when the name is not registered. -/
def convert (marker openai markitdown : String → String)
    (conversion_type input_path : String) : Option String :=
  (alistLookup (conversion_methods marker openai markitdown) conversion_type).map
    (fun f => f input_path)

end Converter

namespace Chroma

/-- The metadata dict of a chunk as used by `batch_insert_documents`:
only its `content_cid` field is read. -/
structure DocMetadata where
  content_cid : String
deriving DecidableEq, Repr

/-- An embedding vector; its numeric contents are opaque to the
insertion logic. -/
abbrev Embedding := List Int

/-- The two `ValueError` cases of `batch_insert_documents`. -/
inductive InsertError where
  | databaseDoesNotExist (db_name : String)
  | lengthMismatch
deriving DecidableEq, Repr

/-- `VectorDatabaseManager` state: the configured database names and the
rows held by each collection, a row being
(id, document, embedding, metadata). -/
structure VectorDatabaseManager where
  db_names : List String
  collections : List (String × List (String × String × Embedding × DocMetadata))
deriving Repr

/-- `collection.add`: append the rows to the named collection. -/
def appendToCollection
    (cols : List (String × List (String × String × Embedding × DocMetadata)))
    (db_name : String) (rows : List (String × String × Embedding × DocMetadata)) :
    List (String × List (String × String × Embedding × DocMetadata)) :=
  setEntry cols db_name ((alistLookup cols db_name).getD [] ++ rows)

/-- `VectorDatabaseManager.batch_insert_documents`
(src/src/db/chroma_client.py lines 87–120): validate the database name,
then the list lengths, return unchanged on an empty batch, and otherwise
add all rows (documents being the `content_cid` of each metadata dict). -/
def batch_insert_documents (mgr : VectorDatabaseManager) (db_name : String)
    (embeddings : List Embedding) (metadatas : List DocMetadata)
    (doc_ids : List String) : Except InsertError VectorDatabaseManager :=
  if db_name ∉ mgr.db_names then
    Except.error (InsertError.databaseDoesNotExist db_name)
  else if ¬ (embeddings.length = metadatas.length ∧
             metadatas.length = doc_ids.length) then
    Except.error InsertError.lengthMismatch
  else if embeddings.isEmpty then
    Except.ok mgr
  else
    let documents := metadatas.map (fun m => m.content_cid)
    let rows := doc_ids.zip (documents.zip (embeddings.zip metadatas))
    Except.ok { mgr with collections := appendToCollection mgr.collections db_name rows }

end Chroma

/-! ### Concrete environments and states used to instantiate theorems -/

/-- An environment whose collaborators all answer benignly: every upload
succeeds with a numbered CID, the graph holds no prior conversion, and
the pluggable functions return fixed small outputs. -/
def envTrivial : Env :=
  { uploadResult := fun _ => "QX"
    getConvertedCid := fun _ _ => none
    fetchContent := fun _ => ""
    convertFn := fun _ _ => "T"
    chunkFn := fun _ _ => ["x"]
    embedFn := fun _ _ => "E" }

/-- An environment in which every upload fails (the transport error path
of `__lighthouse_and_commit`, which returns the empty string). -/
def envUploadFail : Env :=
  { uploadResult := fun _ => ""
    getConvertedCid := fun _ _ => none
    fetchContent := fun _ => ""
    convertFn := fun _ _ => "T"
    chunkFn := fun _ _ => ["x"]
    embedFn := fun _ _ => "E" }

/-- An environment in which the graph reports an existing conversion
`Qconv` for every document and converter, but fetching its content
always fails (returns empty). -/
def envFetchFail : Env :=
  { uploadResult := fun _ => "QX"
    getConvertedCid := fun _ _ => some "Qconv"
    fetchContent := fun _ => ""
    convertFn := fun c _ => "text:" ++ c
    chunkFn := fun _ t => [t]
    embedFn := fun _ _ => "E" }

/-- An environment whose chunker output depends on the chunker name, used
to exhibit the chunk-cache key collision: chunker `c` yields two chunks,
any other chunker yields one. -/
def envKeyClash : Env :=
  { uploadResult := fun _ => "QX"
    getConvertedCid := fun _ _ => none
    fetchContent := fun _ => ""
    convertFn := fun _ _ => "T"
    chunkFn := fun k _ => if k = "c" then ["X1", "X2"] else ["Y"]
    embedFn := fun _ _ => "E" }

/-- A state whose global ledger already records combination `c_k_e` for
document `D`. -/
def stSkip : PState :=
  { convert_cache := [], chunk_cache := [],
    globalMappings := [("D", ["c_k_e"])], userMappings := [],
    uploadCount := 0, trace := [] }

/-- A state whose ledgers both record combination `V` for document `D`. -/
def stMono : PState :=
  { convert_cache := [], chunk_cache := [],
    globalMappings := [("D", ["V"])], userMappings := [("D", ["V"])],
    uploadCount := 0, trace := [] }

/-- A manager configured with one database name and empty collections. -/
def mgrW : Chroma.VectorDatabaseManager :=
  { db_names := ["db1"], collections := [] }

/-! ### Helper lemmas about association lists and the mapping ledgers -/

theorem alistLookup_setEntry_self {α : Type} (m : List (String × α)) (k : String)
    (v : α) : alistLookup (setEntry m k v) k = some v := by
  induction m with
  | nil => simp [setEntry, alistLookup]
  | cons p rest ih =>
    obtain ⟨k2, v2⟩ := p
    by_cases h : k2 = k
    · simp [setEntry, alistLookup, h]
    · simp [setEntry, alistLookup, h, ih]

theorem alistLookup_setEntry_ne {α : Type} (m : List (String × α)) (k k2 : String)
    (v : α) (h : k ≠ k2) : alistLookup (setEntry m k v) k2 = alistLookup m k2 := by
  induction m with
  | nil => simp [setEntry, alistLookup, h]
  | cons p rest ih =>
    obtain ⟨k3, v3⟩ := p
    by_cases h3 : k3 = k
    · subst h3; simp [setEntry, alistLookup, h]
    · simp [setEntry, alistLookup, h3, ih]

theorem setEntry_of_lookup_eq {α : Type} (m : List (String × α)) (k : String)
    (v : α) (h : alistLookup m k = some v) : setEntry m k v = m := by
  induction m with
  | nil => simp [alistLookup] at h
  | cons p rest ih =>
    obtain ⟨k2, v2⟩ := p
    by_cases h2 : k2 = k
    · subst h2
      simp [alistLookup] at h
      simp [setEntry, h]
    · simp [alistLookup, h2] at h
      simp [setEntry, h2, ih h]

theorem isComplete_updateMappingData_self (m : MappingData) (cid combo : String) :
    isComplete (updateMappingData m cid combo) cid combo = true := by
  unfold updateMappingData isComplete
  by_cases h : combo ∈ (alistLookup m cid).getD []
  · simp [h, alistLookup_setEntry_self]
  · simp [h, alistLookup_setEntry_self]

theorem updateMappingData_of_complete (m : MappingData) (cid combo : String)
    (h : isComplete m cid combo = true) : updateMappingData m cid combo = m := by
  unfold isComplete at h
  cases hl : alistLookup m cid with
  | none => rw [hl] at h; simp at h
  | some l =>
    rw [hl] at h
    simp at h
    unfold updateMappingData
    rw [hl]
    simp [h, setEntry_of_lookup_eq m cid l hl]

theorem mem_updateMappingData (m : MappingData) (cid combo cid2 combo2 : String)
    (h : combo2 ∈ (alistLookup m cid2).getD []) :
    combo2 ∈ (alistLookup (updateMappingData m cid combo) cid2).getD [] := by
  unfold updateMappingData
  by_cases hc : cid = cid2
  · subst hc
    by_cases hm : combo ∈ (alistLookup m cid).getD []
    · simp [hm, alistLookup_setEntry_self]; exact h
    · simp [hm, alistLookup_setEntry_self]
      exact Or.inl h
  · by_cases hm : combo ∈ (alistLookup m cid).getD [] <;>
      simp [hm, alistLookup_setEntry_ne _ _ _ _ hc] <;> exact h

theorem mappingLE_refl (m : MappingData) : mappingLE m m := fun _ _ h => h

theorem mappingLE_trans {a b c : MappingData} (h1 : mappingLE a b)
    (h2 : mappingLE b c) : mappingLE a c :=
  fun cid combo h => h2 cid combo (h1 cid combo h)

theorem ledgersLE_refl (s : PState) : ledgersLE s s :=
  ⟨mappingLE_refl _, mappingLE_refl _⟩

theorem ledgersLE_trans {a b c : PState} (h1 : ledgersLE a b)
    (h2 : ledgersLE b c) : ledgersLE a c :=
  ⟨mappingLE_trans h1.1 h2.1, mappingLE_trans h1.2 h2.2⟩

theorem updateMappings_fields (st : PState) (cid combo : String) :
    (updateMappings st cid combo).globalMappings =
      updateMappingData st.globalMappings cid combo ∧
    (updateMappings st cid combo).userMappings =
      updateMappingData st.userMappings cid combo ∧
    (updateMappings st cid combo).trace =
      Event.writeUserMappings :: Event.writeGlobalMappings :: st.trace ∧
    (updateMappings st cid combo).convert_cache = st.convert_cache ∧
    (updateMappings st cid combo).chunk_cache = st.chunk_cache ∧
    (updateMappings st cid combo).uploadCount = st.uploadCount := by
  simp [updateMappings]

theorem updateMappings_ledgersLE (st : PState) (cid combo : String) :
    ledgersLE st (updateMappings st cid combo) := by
  constructor
  · intro cid2 combo2 h
    simp only [updateMappings]
    exact mem_updateMappingData _ _ _ _ _ h
  · intro cid2 combo2 h
    simp only [updateMappings]
    exact mem_updateMappingData _ _ _ _ _ h

theorem processChunk_mappings (env : Env) (authorCid convCid : String) (v : Variant)
    (chunkText : String) (st : PState) :
    (processChunk env authorCid convCid v chunkText st).globalMappings =
        st.globalMappings ∧
    (processChunk env authorCid convCid v chunkText st).userMappings =
        st.userMappings := by
  simp [processChunk, lighthouseAndCommit, addIpfsNode, createRelationship]

theorem chunkFold_mappings (env : Env) (authorCid convCid : String) (v : Variant)
    (l : List String) :
    ∀ st : PState,
      ((l.foldl (fun s ch => processChunk env authorCid convCid v ch s) st).globalMappings =
          st.globalMappings ∧
       (l.foldl (fun s ch => processChunk env authorCid convCid v ch s) st).userMappings =
          st.userMappings) := by
  induction l with
  | nil => intro st; simp
  | cons ch rest ih =>
    intro st
    have h1 := processChunk_mappings env authorCid convCid v ch st
    have h2 := ih (processChunk env authorCid convCid v ch st)
    simp only [List.foldl_cons]
    exact ⟨h2.1.trans h1.1, h2.2.trans h1.2⟩

theorem conversionPhase_mappings (env : Env)
    (pdfPath pdfCid authorCid converter : String) (st : PState) :
    (conversionPhase env pdfPath pdfCid authorCid converter st).2.globalMappings =
        st.globalMappings ∧
    (conversionPhase env pdfPath pdfCid authorCid converter st).2.userMappings =
        st.userMappings := by
  unfold conversionPhase
  cases h0 : optTruthy (env.getConvertedCid pdfCid converter) <;>
    simp only [h0, Bool.false_eq_true, if_false, if_true, reduceIte] <;>
    (try split) <;>
    (try split) <;>
    simp_all [lighthouseAndCommit, addIpfsNode, createRelationship] <;>
    (try split) <;>
    simp_all [lighthouseAndCommit, addIpfsNode, createRelationship]

theorem processVariant_ledgersLE (env : Env) (pdfPath pdfCid authorCid : String)
    (v : Variant) (st : PState) :
    ledgersLE st (processVariant env pdfPath pdfCid authorCid v st) := by
  unfold processVariant
  by_cases h : isComplete st.globalMappings pdfCid v.combination
  · simp only [h, if_true]
    exact updateMappings_ledgersLE st pdfCid v.combination
  · simp only [h, Bool.false_eq_true, if_false]
    have hc := conversionPhase_mappings env pdfPath pdfCid authorCid v.converter st
    have hchunk :
        ∀ (chs : List String) (s2 : PState),
          s2.globalMappings = st.globalMappings →
          s2.userMappings = st.userMappings →
          ledgersLE st
            (updateMappings
              (chs.foldl
                (fun s ch =>
                  processChunk env authorCid
                    (conversionPhase env pdfPath pdfCid authorCid v.converter st).1 v ch s)
                s2)
              pdfCid v.combination) := by
      intro chs s2 hg hu
      have hf := chunkFold_mappings env authorCid
        (conversionPhase env pdfPath pdfCid authorCid v.converter st).1 v chs s2
      have hle := updateMappings_ledgersLE
        (chs.foldl
          (fun s ch =>
            processChunk env authorCid
              (conversionPhase env pdfPath pdfCid authorCid v.converter st).1 v ch s)
          s2) pdfCid v.combination
      refine ⟨?_, ?_⟩
      · intro cid2 combo2 hmem
        exact hle.1 cid2 combo2 (by rw [hf.1, hg]; exact hmem)
      · intro cid2 combo2 hmem
        exact hle.2 cid2 combo2 (by rw [hf.2, hu]; exact hmem)
    split
    · exact hchunk _ _ hc.1 hc.2
    · exact hchunk _ _ hc.1 hc.2

theorem foldl_ledgersLE {α : Type} (f : PState → α → PState)
    (hf : ∀ s x, ledgersLE s (f s x)) (l : List α) :
    ∀ s : PState, ledgersLE s (l.foldl f s) := by
  induction l with
  | nil => intro s; exact ledgersLE_refl s
  | cons x xs ih => intro s; exact ledgersLE_trans (hf s x) (ih (f s x))

theorem process_ledgersLE (env : Env) (pdfPath authorCid : String)
    (databases : List Variant) (st : PState) :
    ledgersLE st (process env pdfPath authorCid databases st) := by
  simp only [process, lighthouseAndCommit, addIpfsNode, createRelationship]
  split
  · exact ⟨fun _ _ h => h, fun _ _ h => h⟩
  · refine ledgersLE_trans ?_
      (foldl_ledgersLE _
        (fun s v => processVariant_ledgersLE env pdfPath _ authorCid v s) databases _)
    exact ⟨fun _ _ h => h, fun _ _ h => h⟩

theorem updateMappings_complete (st : PState) (cid combo : String) :
    isComplete (updateMappings st cid combo).globalMappings cid combo = true ∧
    isComplete (updateMappings st cid combo).userMappings cid combo = true := by
  simp [updateMappings, isComplete_updateMappingData_self]

theorem processMany_ledgersLE (env : Env)
    (reqs : List (String × String × List Variant)) :
    ∀ st : PState, ledgersLE st (processMany env reqs st) := by
  induction reqs with
  | nil =>
    intro st
    exact ledgersLE_refl st
  | cons r rest ih =>
    intro st
    have h1 : processMany env (r :: rest) st =
        processMany env rest (process env r.1 r.2.1 r.2.2 st) := rfl
    rw [h1]
    exact ledgersLE_trans (process_ledgersLE env r.1 r.2.1 r.2.2 st)
      (ih (process env r.1 r.2.1 r.2.2 st))

theorem sep_append_inj : ∀ (l1 l2 r1 r2 : List Char),
    Char.ofNat 95 ∉ l1 → Char.ofNat 95 ∉ l2 →
    l1 ++ Char.ofNat 95 :: r1 = l2 ++ Char.ofNat 95 :: r2 → l1 = l2 ∧ r1 = r2 := by
  intro l1
  induction l1 with
  | nil =>
    intro l2 r1 r2 h1 h2 h
    cases l2 with
    | nil => simpa using h
    | cons d ds =>
      simp only [List.nil_append, List.cons_append, List.cons.injEq] at h
      exact absurd (List.mem_cons.mpr (Or.inl h.1)) h2
  | cons a as ih =>
    intro l2 r1 r2 h1 h2 h
    cases l2 with
    | nil =>
      simp only [List.nil_append, List.cons_append, List.cons.injEq] at h
      exact absurd (List.mem_cons.mpr (Or.inl h.1.symm)) h1
    | cons d ds =>
      simp only [List.cons_append, List.cons.injEq] at h
      have h1a : Char.ofNat 95 ∉ as := fun hm => h1 (List.mem_cons.mpr (Or.inr hm))
      have h2a : Char.ofNat 95 ∉ ds := fun hm => h2 (List.mem_cons.mpr (Or.inr hm))
      obtain ⟨ha, hb⟩ := ih ds r1 r2 h1a h2a h.2
      exact ⟨by rw [h.1, ha], hb⟩

/-! ### The claims -/

/-- **C1.** If the global ledger already records the variant's combination
for the document CID, `processVariant` performs no conversion, no
chunking, no embedding, no upload and no graph write: the state changes
only by the two ledger writes, the global ledger contents are unchanged,
the user ledger gains the combination, and afterwards the pair is
complete in both scopes. -/
theorem skip_complete_variant (env : Env) (pdfPath pdfCid authorCid : String)
    (v : Variant) (st : PState)
    (h : isComplete st.globalMappings pdfCid v.combination = true) :
    processVariant env pdfPath pdfCid authorCid v st =
      { st with
          userMappings := updateMappingData st.userMappings pdfCid v.combination,
          trace := Event.writeUserMappings :: Event.writeGlobalMappings :: st.trace } ∧
    isComplete (processVariant env pdfPath pdfCid authorCid v st).globalMappings
        pdfCid v.combination = true ∧
    isComplete (processVariant env pdfPath pdfCid authorCid v st).userMappings
        pdfCid v.combination = true := by
  have heq : processVariant env pdfPath pdfCid authorCid v st =
      updateMappings st pdfCid v.combination := by
    unfold processVariant
    simp [h]
  have hg := updateMappingData_of_complete st.globalMappings pdfCid v.combination h
  refine ⟨?_, ?_, ?_⟩
  · rw [heq]; unfold updateMappings; simp [hg]
  · rw [heq]; unfold updateMappings; simp [hg]; exact h
  · rw [heq]; unfold updateMappings; simp [isComplete_updateMappingData_self]

/-- Witness for C1 at a concrete complete entry. -/
theorem skip_complete_variant_witness :
    isComplete
      (processVariant envTrivial "p" "D" "A" (Variant.mk "c" "k" "e") stSkip).userMappings
      "D" (Variant.mk "c" "k" "e").combination = true :=
  (skip_complete_variant envTrivial "p" "D" "A" (Variant.mk "c" "k" "e") stSkip
    (by decide)).2.2

/-- **C3.** Whenever a variant enters the compute path (its combination is
not globally recorded), `processVariant` ends with the completion record
in both scopes, and the final two effects are exactly the global-then-user
ledger writes — for every environment, including those in which every
upload fails (`uploadResult` returning the empty string models the
logged-and-swallowed mid-variant failures). -/
theorem markComplete_after_compute (env : Env) (pdfPath pdfCid authorCid : String)
    (v : Variant) (st : PState)
    (h : isComplete st.globalMappings pdfCid v.combination = false) :
    isComplete (processVariant env pdfPath pdfCid authorCid v st).globalMappings
        pdfCid v.combination = true ∧
    isComplete (processVariant env pdfPath pdfCid authorCid v st).userMappings
        pdfCid v.combination = true ∧
    ∃ t, (processVariant env pdfPath pdfCid authorCid v st).trace =
        Event.writeUserMappings :: Event.writeGlobalMappings :: t := by
  unfold processVariant
  simp only [h, Bool.false_eq_true, if_false]
  split <;>
    exact ⟨(updateMappings_complete _ _ _).1, (updateMappings_complete _ _ _).2,
           _, rfl⟩

/-- Witness for C3 in an environment where every upload fails. -/
theorem markComplete_after_compute_witness :
    isComplete
      (processVariant envUploadFail "p" "D" "A" (Variant.mk "c" "k" "e") initState).globalMappings
      "D" (Variant.mk "c" "k" "e").combination = true :=
  (markComplete_after_compute envUploadFail "p" "D" "A" (Variant.mk "c" "k" "e")
    initState (by decide)).1

/-- **C4.** If the raw-document upload fails (empty CID), `process`
returns immediately: apart from the failed upload call and the per-run
cache reset, the state is unchanged — no graph node, no edge, no variant
work, no ledger write in either scope. -/
theorem upload_failure_aborts (env : Env) (pdfPath authorCid : String)
    (databases : List Variant) (st : PState)
    (h : env.uploadResult st.uploadCount = "") :
    process env pdfPath authorCid databases st =
      { st with convert_cache := [], chunk_cache := [],
                uploadCount := st.uploadCount + 1,
                trace := Event.upload "" :: st.trace } := by
  unfold process lighthouseAndCommit
  simp [h, strTruthy, show ("".isEmpty) = true from rfl]

/-- Witness for C4: a concrete failing-transport run. -/
theorem upload_failure_aborts_witness :
    process envUploadFail "p" "A" [Variant.mk "c" "k" "e"] initState =
      { initState with uploadCount := 1, trace := [Event.upload ""] } :=
  upload_failure_aborts envUploadFail "p" "A" [Variant.mk "c" "k" "e"] initState rfl

/-- **C5.** `__update_mappings` adds the variant's canonical combination
string to the document's set in the global store and in the user store,
as two separate read-modify-write cycles on the two stores, the global
write strictly before the user write (the trace is most-recent-first, so
the global-write event sits below the user-write event). -/
theorem updateMappings_both_scopes (st : PState) (cid : String) (v : Variant) :
    (updateMappings st cid v.combination).globalMappings =
      updateMappingData st.globalMappings cid v.combination ∧
    (updateMappings st cid v.combination).userMappings =
      updateMappingData st.userMappings cid v.combination ∧
    (updateMappings st cid v.combination).trace =
      Event.writeUserMappings :: Event.writeGlobalMappings :: st.trace ∧
    isComplete (updateMappings st cid v.combination).globalMappings cid
      v.combination = true ∧
    isComplete (updateMappings st cid v.combination).userMappings cid
      v.combination = true := by
  simp [updateMappings, isComplete_updateMappingData_self]

/-- **C6.** Across any sequence of orchestrator invocations both ledgers
only grow: every recorded combination stays recorded.  Moreover a single
ledger update either leaves a document's set unchanged or appends exactly
the new combination, and never touches any other document's entry. -/
theorem mappings_monotone (env : Env)
    (reqs : List (String × String × List Variant)) (st : PState) :
    ledgersLE st (processMany env reqs st) ∧
    (∀ (m : MappingData) (cid combo : String),
        (alistLookup (updateMappingData m cid combo) cid).getD [] =
            (alistLookup m cid).getD [] ∨
        (alistLookup (updateMappingData m cid combo) cid).getD [] =
            (alistLookup m cid).getD [] ++ [combo]) ∧
    (∀ (m : MappingData) (cid combo cid2 : String), cid ≠ cid2 →
        alistLookup (updateMappingData m cid combo) cid2 = alistLookup m cid2) := by
  refine ⟨?_, ?_, ?_⟩
  · exact processMany_ledgersLE env reqs st
  · intro m cid combo
    unfold updateMappingData
    by_cases hm : combo ∈ (alistLookup m cid).getD []
    · left; simp [hm, alistLookup_setEntry_self]
    · right; simp [hm, alistLookup_setEntry_self]
  · intro m cid combo cid2 hne
    unfold updateMappingData
    by_cases hm : combo ∈ (alistLookup m cid).getD [] <;>
      simp [hm, alistLookup_setEntry_ne _ _ _ _ hne]

/-- Witness for C6 at a concrete run and a concrete disjoint key. -/
theorem mappings_monotone_witness :
    ("V" ∈ (alistLookup
        (processMany envTrivial [("p", "A", [Variant.mk "c" "k" "e"])] stMono).globalMappings
        "D").getD []) ∧
    alistLookup (updateMappingData [] "D" "V") "E" =
      alistLookup ([] : MappingData) "E" :=
  ⟨(mappings_monotone envTrivial [("p", "A", [Variant.mk "c" "k" "e"])] stMono).1.1
      "D" "V" (by decide),
   (mappings_monotone envTrivial [("p", "A", [Variant.mk "c" "k" "e"])] stMono).2.2
      [] "D" "V" "E" (by decide)⟩

/-- **C8.** `__read_mappings` on a missing ledger file, or on one whose
contents fail to parse, yields the empty mapping rather than an error,
and a completeness check against that result reports every variant as
not complete. -/
theorem read_mappings_missing_or_corrupt (parse : String → Option MappingData)
    (contents : Option String)
    (h : contents = none ∨ ∃ s, contents = some s ∧ parse s = none) :
    readMappings parse contents = [] ∧
    ∀ cid combo, isComplete (readMappings parse contents) cid combo = false := by
  have he : readMappings parse contents = [] := by
    rcases h with h | ⟨s, hs, hp⟩
    · simp [h, readMappings]
    · simp [hs, readMappings, hp]
  exact ⟨he, fun cid combo => by simp [he, isComplete, alistLookup]⟩

/-- Witness for C8 at a parse function that rejects everything. -/
theorem read_mappings_missing_or_corrupt_witness :
    readMappings (fun _ => none) (some "garbage") = [] :=
  (read_mappings_missing_or_corrupt (fun _ => none) (some "garbage")
    (Or.inr ⟨"garbage", rfl, rfl⟩)).1

/-- **C9.** The converter registry is closed and unchecked at the call
site: for any name outside the three registered ones, `convert` hits a
lookup failure (the `KeyError` of the Python dict, modelled as `none`)
instead of returning a result, while each registered name dispatches to
its function. -/
theorem convert_registry_closed (marker openai markitdown : String → String)
    (ty p : String) :
    (ty ∉ (["marker", "openai", "markitdown"] : List String) →
      Converter.convert marker openai markitdown ty p = none) ∧
    Converter.convert marker openai markitdown "marker" p = some (marker p) ∧
    Converter.convert marker openai markitdown "openai" p = some (openai p) ∧
    Converter.convert marker openai markitdown "markitdown" p = some (markitdown p) := by
  refine ⟨?_, ?_, ?_, ?_⟩
  · intro h
    simp only [List.mem_cons, List.not_mem_nil, or_false, not_or] at h
    obtain ⟨h1, h2, h3⟩ := h
    simp only [Converter.convert, Converter.conversion_methods, alistLookup]
    rw [if_neg (fun hx => h1 hx.symm), if_neg (fun hx => h2 hx.symm),
        if_neg (fun hx => h3 hx.symm)]
    rfl
  · simp [Converter.convert, Converter.conversion_methods, alistLookup]
  · simp [Converter.convert, Converter.conversion_methods, alistLookup]
  · simp [Converter.convert, Converter.conversion_methods, alistLookup]

/-- Witness for C9 at the unregistered name `pymupdf`. -/
theorem convert_registry_closed_witness :
    Converter.convert id id id "pymupdf" "doc.pdf" = none :=
  (convert_registry_closed id id id "pymupdf" "doc.pdf").1 (by decide)

/-- **C10.** `batch_insert_documents` validates before inserting: an
unknown database name or a length mismatch raises (an error is returned
and no state is produced), and an empty embeddings list returns the
manager unchanged; the name check precedes the length check. -/
theorem batch_insert_validation (mgr : Chroma.VectorDatabaseManager)
    (db_name : String) (embeddings : List Chroma.Embedding)
    (metadatas : List Chroma.DocMetadata) (doc_ids : List String) :
    (db_name ∉ mgr.db_names →
      Chroma.batch_insert_documents mgr db_name embeddings metadatas doc_ids =
        Except.error (Chroma.InsertError.databaseDoesNotExist db_name)) ∧
    (db_name ∈ mgr.db_names →
      ¬ (embeddings.length = metadatas.length ∧
         metadatas.length = doc_ids.length) →
      Chroma.batch_insert_documents mgr db_name embeddings metadatas doc_ids =
        Except.error Chroma.InsertError.lengthMismatch) ∧
    (db_name ∈ mgr.db_names → embeddings = [] →
      embeddings.length = metadatas.length → metadatas.length = doc_ids.length →
      Chroma.batch_insert_documents mgr db_name embeddings metadatas doc_ids =
        Except.ok mgr) := by
  refine ⟨?_, ?_, ?_⟩
  · intro h
    simp [Chroma.batch_insert_documents, h]
  · intro h1 h2
    simp [Chroma.batch_insert_documents, h1, h2]
  · intro h1 h2 h3 h4
    subst h2
    simp [Chroma.batch_insert_documents, h1, ← h3, ← h4]

/-- **C2, counterexample.**  A `process` run over two variants sharing
converter `c`, in an environment where the graph reports an existing
conversion `Qconv` whose content fetch always fails.  The fetch-fails
case of the claim's disjunction therefore holds during both variants'
processing, and both variants run the compute path (their combinations
differ, and both ledger entries and both chunk steps are present in the
result), yet the converter is invoked only once — during the second
variant the cached text from the first is reused.  This refutes the
claim that the converter invocation happens in every case of the
disjunction. -/
theorem converter_invocation_counterexample :
    envFetchFail.getConvertedCid "QX" "c" = some "Qconv" ∧
    strTruthy (envFetchFail.fetchContent "Qconv") = false ∧
    (Variant.mk "c" "k1" "e1").combination ≠ (Variant.mk "c" "k2" "e1").combination ∧
    isComplete (process envFetchFail "p" "QA"
        [Variant.mk "c" "k1" "e1", Variant.mk "c" "k2" "e1"] initState).globalMappings
      "QX" (Variant.mk "c" "k2" "e1").combination = true ∧
    chunkCalls (process envFetchFail "p" "QA"
        [Variant.mk "c" "k1" "e1", Variant.mk "c" "k2" "e1"] initState).trace =
      ["k2", "k1"] ∧
    convertCalls (process envFetchFail "p" "QA"
        [Variant.mk "c" "k1" "e1", Variant.mk "c" "k2" "e1"] initState).trace = ["c"] := by
  refine ⟨rfl, rfl, by decide, by decide, by decide, by decide⟩

/-- **C2, amended.**  In the conversion step of variant processing, the
converter function is invoked (and its result cached) exactly when the
conversion could not be obtained from the graph (no usable
`CONVERTED_BY_<converter>` edge, or the content fetch fails) *and* the
per-run convert cache has no entry for the converter; and whenever the
conversion could not be obtained from the graph — with or without an
invocation — the converted text is uploaded, registered as a node, and
linked with a `CONVERTED_BY_<converter>` and an `AUTHORED_BY` edge, and
the convert cache ends up holding an entry for the converter. -/
theorem converter_invocation_characterization (env : Env)
    (pdfPath pdfCid authorCid converter : String) (st : PState)
    (c : String) (st2 : PState)
    (hrun : conversionPhase env pdfPath pdfCid authorCid converter st = (c, st2)) :
    (convertCalls st2.trace =
      (if (optTruthy (env.getConvertedCid pdfCid converter) &&
            strTruthy (env.fetchContent
              ((env.getConvertedCid pdfCid converter).getD ""))) = false ∧
          alistLookup st.convert_cache converter = none
        then [converter] else []) ++ convertCalls st.trace) ∧
    ((optTruthy (env.getConvertedCid pdfCid converter) &&
        strTruthy (env.fetchContent
          ((env.getConvertedCid pdfCid converter).getD ""))) = false →
      st2.trace =
        Event.addEdge c authorCid "AUTHORED_BY" ::
        Event.addEdge pdfCid c ("CONVERTED_BY_" ++ converter) ::
        Event.addNode c ::
        Event.upload c ::
        (if alistLookup st.convert_cache converter = none
          then Event.convertCall converter :: st.trace else st.trace) ∧
      (alistLookup st2.convert_cache converter).isSome = true) := by
  have hc : c = (conversionPhase env pdfPath pdfCid authorCid converter st).1 := by
    rw [hrun]
  have hs : st2 = (conversionPhase env pdfPath pdfCid authorCid converter st).2 := by
    rw [hrun]
  subst hc
  subst hs
  cases h0 : env.getConvertedCid pdfCid converter with
  | none =>
    cases hl : alistLookup st.convert_cache converter <;>
      simp [conversionPhase, h0, hl, optTruthy, lighthouseAndCommit, addIpfsNode,
        createRelationship, convertCalls, alistLookup_setEntry_self]
  | some s =>
    cases he : s.isEmpty
    · cases hf : strTruthy (env.fetchContent s)
      · cases hl : alistLookup st.convert_cache converter <;>
          simp [conversionPhase, h0, he, hf, hl, optTruthy, lighthouseAndCommit,
            addIpfsNode, createRelationship, convertCalls, alistLookup_setEntry_self]
      · simp [conversionPhase, h0, he, hf, optTruthy, lighthouseAndCommit,
          addIpfsNode, createRelationship, convertCalls, alistLookup_setEntry_self]
    · cases hl : alistLookup st.convert_cache converter <;>
        simp [conversionPhase, h0, he, optTruthy, hl, lighthouseAndCommit,
          addIpfsNode, createRelationship, convertCalls, alistLookup_setEntry_self]

/-- Witness for the amended C2: the fetch-fails, cache-empty case
invokes the converter and seeds the cache. -/
theorem converter_invocation_characterization_witness :
    (alistLookup
      (conversionPhase envFetchFail "p" "D" "A" "c" initState).2.convert_cache
      "c").isSome = true :=
  ((converter_invocation_characterization envFetchFail "p" "D" "A" "c" initState
      (conversionPhase envFetchFail "p" "D" "A" "c" initState).1
      (conversionPhase envFetchFail "p" "D" "A" "c" initState).2 rfl).2
    (by decide)).2

/-- **C7, counterexample.**  The per-run chunk cache is keyed by the
string `converter ++ "_" ++ chunker`, which identifies the distinct
pairs `("a_b", "c")` and `("a", "b_c")`.  Running `process` over two
variants carrying these pairs (with distinct embedders, so neither is
skipped): the second variant is fully processed (its combination is
recorded), yet its chunker `b_c` is never invoked — its cache lookup
returned the first pair's chunk list, and its embedder `e2` ran on the
first pair's chunk `X1`.  This refutes the claim that distinct
(converter, chunker) pairs always map to distinct cache entries. -/
theorem chunk_cache_key_collision :
    ((("a_b" : String), ("c" : String)) ≠ (("a" : String), ("b_c" : String))) ∧
    chunkCacheKey "a_b" "c" = chunkCacheKey "a" "b_c" ∧
    isComplete (process envKeyClash "p" "QA"
        [Variant.mk "a_b" "c" "e1", Variant.mk "a" "b_c" "e2"] initState).globalMappings
      "QX" (Variant.mk "a" "b_c" "e2").combination = true ∧
    chunkCalls (process envKeyClash "p" "QA"
        [Variant.mk "a_b" "c" "e1", Variant.mk "a" "b_c" "e2"] initState).trace =
      ["c"] ∧
    Event.embedCall "e2" "X1" ∈ (process envKeyClash "p" "QA"
        [Variant.mk "a_b" "c" "e1", Variant.mk "a" "b_c" "e2"] initState).trace := by
  refine ⟨by decide, rfl, by decide, by decide, by decide⟩

/-- **C7, amended.**  Restricted to converter names containing no
underscore, the chunk-cache key `converter ++ "_" ++ chunker` is
injective on (converter, chunker) pairs, and writing one pair's chunk
list into the cache leaves the entry looked up for any other pair
untouched; with an underscore in a converter name distinct pairs can
collide (see the counterexample). -/
theorem chunk_cache_key_inj (c1 k1 c2 k2 : String)
    (h1 : Char.ofNat 95 ∉ c1.data) (h2 : Char.ofNat 95 ∉ c2.data)
    (hne : (c1, k1) ≠ (c2, k2)) :
    chunkCacheKey c1 k1 ≠ chunkCacheKey c2 k2 ∧
    ∀ (cache : List (String × List String)) (l : List String),
      alistLookup (setEntry cache (chunkCacheKey c1 k1) l) (chunkCacheKey c2 k2) =
        alistLookup cache (chunkCacheKey c2 k2) := by
  have hkey : chunkCacheKey c1 k1 ≠ chunkCacheKey c2 k2 := by
    intro he
    apply hne
    have hd : (chunkCacheKey c1 k1).data = (chunkCacheKey c2 k2).data := by rw [he]
    have hd2 : c1.data ++ Char.ofNat 95 :: k1.data =
        c2.data ++ Char.ofNat 95 :: k2.data := by
      have hu : ("_" : String).data = [Char.ofNat 95] := rfl
      simpa [chunkCacheKey, String.data_append, hu] using hd
    obtain ⟨ha, hb⟩ := sep_append_inj c1.data c2.data k1.data k2.data h1 h2 hd2
    rw [String.ext ha, String.ext hb]
  exact ⟨hkey, fun cache l => alistLookup_setEntry_ne _ _ _ _ hkey⟩

/-- Witness for the amended C7 at two concrete underscore-free pairs. -/
theorem chunk_cache_key_inj_witness :
    alistLookup (setEntry [] (chunkCacheKey "a" "x") ["chunkA"])
      (chunkCacheKey "b" "y") =
      alistLookup ([] : List (String × List String)) (chunkCacheKey "b" "y") :=
  (chunk_cache_key_inj "a" "x" "b" "y" (by decide) (by decide) (by decide)).2
    [] ["chunkA"]

/-- Witness for C10: the three validation outcomes at concrete inputs. -/
theorem batch_insert_validation_witness :
    (Chroma.batch_insert_documents mgrW "nope" [] [] [] =
      Except.error (Chroma.InsertError.databaseDoesNotExist "nope")) ∧
    (Chroma.batch_insert_documents mgrW "db1" [[1]] [] [] =
      Except.error Chroma.InsertError.lengthMismatch) ∧
    (Chroma.batch_insert_documents mgrW "db1" [] [] [] = Except.ok mgrW) :=
  ⟨(batch_insert_validation mgrW "nope" [] [] []).1 (by decide),
   (batch_insert_validation mgrW "db1" [[1]] [] []).2.1 (by decide) (by decide),
   (batch_insert_validation mgrW "db1" [] [] []).2.2 (by decide) rfl rfl rfl⟩

end DesciDB
